import Mathlib

/-!
Verification of the `ser_mapper` crate (src/lib.rs): the `impl_dto!` macro
generates, for a declared DTO mapping over a source entity type, a
`dto_serialize` operation plus eight serde wrapper types dispatching to it.

Shallow embedding: the serde `Serializer` is modelled as a streaming event
sink.  A serialization run threads a trace of emitted events; the sink may
refuse any single event with an error (modelling `S::Error` surfaced by
`serialize_struct` / `serialize_field` / `serialize_seq` / `serialize_element`
/ `end`), in which case the run stops and returns that error, exactly as the
`?` operator does in the generated Rust code.  Field values (post member
access, post transform) are drawn from an arbitrary value type `V`; the
source entity type is an arbitrary `σ`.
-/

namespace SerMapper

/-- One serde-level event emitted to the output sink, mirroring the calls the
generated code makes: `serialize_struct` (name and declared field count),
`serialize_field`, `end` of a struct, `serialize_none`, `serialize_seq`
(with its length hint) and `end` of a sequence. -/
inductive SEvent (V : Type) where
  | beginStruct (name : String) (size : Nat)
  | field (name : String) (value : V)
  | endStruct
  | null
  | beginSeq (len : Option Nat)
  | endSeq
deriving DecidableEq, Repr

/-- One declared field of the mapping, `$field: $field_ty = $($inner_path).+
(=> $fn_expr)?`: the output name, the member-access chain `self.$($inner_path).+`
embedded as a function on the source value, and the optional transform. -/
structure FieldSpec (σ V : Type) where
  field : String
  access : σ → V
  fn_expr : Option (V → V)

/-- The parsed mapping: DTO name and the ordered declared field list. -/
structure DtoSpec (σ V : Type) where
  dto : String
  fields : List (FieldSpec σ V)

/-- The `impl_dto!(@count t1, ..., tn)` recursive counter: a single remaining
token yields 1, otherwise 1 plus the count of the tail.  The macro has no rule
for an empty token list, so the empty case is a failure, modelled as `none`. -/
def count {α : Type} : List α → Option Nat
  | [] => none
  | [_] => some 1
  | _ :: t :: ts => (count (t :: ts)).map (fun n => 1 + n)

/-- The count the generated `serialize_struct` call receives.  `impl_dto!`
fails to expand when the field list is empty, so for every spec the macro
accepts this equals `(count fields).get`; the default 0 is unreachable. -/
def countD {α : Type} (l : List α) : Nat := (count l).getD 0

/-- An output sink with fault injection: given the events already written and
the next event, it either accepts (`none`) or surfaces an error (`some ε`). -/
structure FSink (V E : Type) where
  err : List (SEvent V) → SEvent V → Option E

/-- A sink that accepts every event (an infallible serializer). -/
def noFail {V E : Type} (snk : FSink V E) : Prop :=
  ∀ tr e, snk.err tr e = none

/-- Write one event to the sink: on success the event is appended to the
trace, on failure the trace is unchanged and the sink error is returned. -/
def emit {V E : Type} (snk : FSink V E) (tr : List (SEvent V)) (e : SEvent V) :
    List (SEvent V) × Option E :=
  match snk.err tr e with
  | some ε => (tr, some ε)
  | none => (tr ++ [e], none)

/-- The per-field value computation of the generated loop body:
`let value = &self.$($inner_path).+; let value = $($fn_expr)?(value);` —
resolve the member-access chain, then apply the transform when one is
declared, else pass the resolved value through unchanged (with no transform
the macro expands `$($fn_expr)?(value)` to just `(value)`). -/
def fieldValue {σ V : Type} (f : FieldSpec σ V) (self : σ) : V :=
  match f.fn_expr with
  | some g => g (f.access self)
  | none => f.access self

/-- The `serialize_field(stringify!($field), &value)` event for one field. -/
def fieldEvent {σ V : Type} (self : σ) (f : FieldSpec σ V) : SEvent V :=
  SEvent.field f.field (fieldValue f self)

/-- The generated field loop: for each declared field in order, resolve,
transform, and `serialize_field(...)?` — an error stops the loop and is
returned as is. -/
def serFields {σ V E : Type} (snk : FSink V E) (self : σ) :
    List (FieldSpec σ V) → List (SEvent V) → List (SEvent V) × Option E
  | [], tr => (tr, none)
  | f :: fs, tr =>
    match emit snk tr (fieldEvent self f) with
    | (tr1, none) => serFields snk self fs tr1
    | (tr1, some ε) => (tr1, some ε)

/-- The generated `dto_serialize` (src/lib.rs lines 116-131):
`serialize_struct(stringify!($dto), impl_dto!(@count ...))?`, then the field
loop, then `state.end()`. -/
def dto_serialize {σ V E : Type} (spec : DtoSpec σ V) (self : σ)
    (snk : FSink V E) (tr : List (SEvent V)) : List (SEvent V) × Option E :=
  match emit snk tr (SEvent.beginStruct spec.dto (countD spec.fields)) with
  | (tr1, some ε) => (tr1, some ε)
  | (tr1, none) =>
    match serFields snk self spec.fields tr1 with
    | (tr2, some ε) => (tr2, some ε)
    | (tr2, none) => emit snk tr2 SEvent.endStruct

/-- `struct _Dto(pub Entity)` — owned single value wrapper. -/
structure _Dto (σ : Type) where
  val : σ

/-- `struct _DtoRef<'a>(pub &'a Entity)` — a shared reference denotes the
value it points to in the embedding. -/
structure _DtoRef (σ : Type) where
  val : σ

/-- `struct _DtoOption(pub Option<Entity>)`. -/
structure _DtoOption (σ : Type) where
  val : Option σ

/-- `struct _DtoRefOption<'a>(pub Option<&'a Entity>)`. -/
structure _DtoRefOption (σ : Type) where
  val : Option σ

/-- `struct _DtoOptionRef<'a>(pub &'a Option<Entity>)`. -/
structure _DtoOptionRef (σ : Type) where
  val : Option σ

/-- `struct _DtoVec(pub Vec<Entity>)`. -/
structure _DtoVec (σ : Type) where
  val : List σ

/-- `struct _DtoRefVec<'a>(pub Vec<&'a Entity>)`. -/
structure _DtoRefVec (σ : Type) where
  val : List σ

/-- `struct _DtoVecRef<'a>(pub &'a Vec<Entity>)`. -/
structure _DtoVecRef (σ : Type) where
  val : List σ

/-- `impl Serialize for _Dto`: `self.0.dto_serialize(serializer)`. -/
def _Dto.serialize {σ V E : Type} (spec : DtoSpec σ V) (w : _Dto σ)
    (snk : FSink V E) (tr : List (SEvent V)) : List (SEvent V) × Option E :=
  dto_serialize spec w.val snk tr

/-- `impl Serialize for _DtoRef`: `self.0.dto_serialize(serializer)`. -/
def _DtoRef.serialize {σ V E : Type} (spec : DtoSpec σ V) (w : _DtoRef σ)
    (snk : FSink V E) (tr : List (SEvent V)) : List (SEvent V) × Option E :=
  dto_serialize spec w.val snk tr

/-- `impl Serialize for _DtoOption`: `Some(inner) => _DtoRef(inner).serialize`,
`None => serializer.serialize_none()`. -/
def _DtoOption.serialize {σ V E : Type} (spec : DtoSpec σ V) (w : _DtoOption σ)
    (snk : FSink V E) (tr : List (SEvent V)) : List (SEvent V) × Option E :=
  match w.val with
  | some inner => _DtoRef.serialize spec (_DtoRef.mk inner) snk tr
  | none => emit snk tr SEvent.null

/-- `impl Serialize for _DtoRefOption`: same dispatch as `_DtoOption`. -/
def _DtoRefOption.serialize {σ V E : Type} (spec : DtoSpec σ V)
    (w : _DtoRefOption σ) (snk : FSink V E) (tr : List (SEvent V)) :
    List (SEvent V) × Option E :=
  match w.val with
  | some inner => _DtoRef.serialize spec (_DtoRef.mk inner) snk tr
  | none => emit snk tr SEvent.null

/-- `impl Serialize for _DtoOptionRef`: same dispatch as `_DtoOption`. -/
def _DtoOptionRef.serialize {σ V E : Type} (spec : DtoSpec σ V)
    (w : _DtoOptionRef σ) (snk : FSink V E) (tr : List (SEvent V)) :
    List (SEvent V) × Option E :=
  match w.val with
  | some inner => _DtoRef.serialize spec (_DtoRef.mk inner) snk tr
  | none => emit snk tr SEvent.null

/-- The element loop shared by the sequence impls: for each element,
`state.serialize_element(&_DtoRef(inner))?`, which streams that element's
own serialization into the same output. -/
def serElems {σ V E : Type} (spec : DtoSpec σ V) (snk : FSink V E) :
    List σ → List (SEvent V) → List (SEvent V) × Option E
  | [], tr => (tr, none)
  | inner :: rest, tr =>
    match _DtoRef.serialize spec (_DtoRef.mk inner) snk tr with
    | (tr1, none) => serElems spec snk rest tr1
    | (tr1, some ε) => (tr1, some ε)

/-- `impl Serialize for _DtoRefVec`: `serialize_seq(Some(self.0.len()))?`,
the element loop, then `state.end()`. -/
def _DtoRefVec.serialize {σ V E : Type} (spec : DtoSpec σ V) (w : _DtoRefVec σ)
    (snk : FSink V E) (tr : List (SEvent V)) : List (SEvent V) × Option E :=
  match emit snk tr (SEvent.beginSeq (some w.val.length)) with
  | (tr1, some ε) => (tr1, some ε)
  | (tr1, none) =>
    match serElems spec snk w.val tr1 with
    | (tr2, some ε) => (tr2, some ε)
    | (tr2, none) => emit snk tr2 SEvent.endSeq

/-- `impl Serialize for _DtoVecRef`: identical body to `_DtoRefVec`. -/
def _DtoVecRef.serialize {σ V E : Type} (spec : DtoSpec σ V) (w : _DtoVecRef σ)
    (snk : FSink V E) (tr : List (SEvent V)) : List (SEvent V) × Option E :=
  match emit snk tr (SEvent.beginSeq (some w.val.length)) with
  | (tr1, some ε) => (tr1, some ε)
  | (tr1, none) =>
    match serElems spec snk w.val tr1 with
    | (tr2, some ε) => (tr2, some ε)
    | (tr2, none) => emit snk tr2 SEvent.endSeq

/-- `impl Serialize for _DtoVec`: `_DtoVecRef(&self.0).serialize(serializer)`. -/
def _DtoVec.serialize {σ V E : Type} (spec : DtoSpec σ V) (w : _DtoVec σ)
    (snk : FSink V E) (tr : List (SEvent V)) : List (SEvent V) × Option E :=
  _DtoVecRef.serialize spec (_DtoVecRef.mk w.val) snk tr

/-- The events a successful `dto_serialize` appends: the struct header with
the macro-computed size, each field event in declaration order, the footer. -/
def structEvents {σ V : Type} (spec : DtoSpec σ V) (self : σ) : List (SEvent V) :=
  SEvent.beginStruct spec.dto (countD spec.fields) ::
    spec.fields.map (fieldEvent self) ++ [SEvent.endStruct]

/-- The events a successful optional-wrapper serialization appends. -/
def optionEvents {σ V : Type} (spec : DtoSpec σ V) (o : Option σ) : List (SEvent V) :=
  match o with
  | some s => structEvents spec s
  | none => [SEvent.null]

/-- The events a successful sequence-wrapper serialization appends. -/
def seqEvents {σ V : Type} (spec : DtoSpec σ V) (l : List σ) : List (SEvent V) :=
  SEvent.beginSeq (some l.length) :: (l.map (structEvents spec)).flatten ++ [SEvent.endSeq]

/-- The output names of the record fields of a trace, in emission order. -/
def recFieldNames {V : Type} : List (SEvent V) → List String
  | [] => []
  | SEvent.field n _ :: rest => n :: recFieldNames rest
  | _ :: rest => recFieldNames rest

/-- The field loop with the source value threaded explicitly through every
iteration, mirroring that the generated Rust loop only ever reads `&self`
and never rebinds or writes it: each step reads `self` to compute the field
value and hands the same `self` to the next step. -/
def serFieldsS {σ V E : Type} (snk : FSink V E) :
    σ → List (FieldSpec σ V) → List (SEvent V) → σ × (List (SEvent V) × Option E)
  | self, [], tr => (self, (tr, none))
  | self, f :: fs, tr =>
    match emit snk tr (fieldEvent self f) with
    | (tr1, none) => serFieldsS snk self fs tr1
    | (tr1, some ε) => (self, (tr1, some ε))

/-- `dto_serialize` with the source value threaded through the call, so the
state of the source entity after the call is explicit in the result. -/
def dto_serializeS {σ V E : Type} (spec : DtoSpec σ V) (self : σ)
    (snk : FSink V E) (tr : List (SEvent V)) : σ × (List (SEvent V) × Option E) :=
  match emit snk tr (SEvent.beginStruct spec.dto (countD spec.fields)) with
  | (tr1, some ε) => (self, (tr1, some ε))
  | (tr1, none) =>
    match serFieldsS snk self spec.fields tr1 with
    | (self1, (tr2, some ε)) => (self1, (tr2, some ε))
    | (self1, (tr2, none)) => (self1, emit snk tr2 SEvent.endStruct)

/-! ### Concrete instances (used by witnesses) -/

/-- A concrete field with a declared transform, in the style of the crate's
doc example: `first_name: String = full_name => |n| ...`. -/
def exField1 : FieldSpec (String × Nat) String :=
  { field := "first_name", access := fun s => s.1, fn_expr := some (fun v => v ++ "!") }

/-- A concrete field with no transform (pass-through). -/
def exField2 : FieldSpec (String × Nat) String :=
  { field := "age", access := fun s => toString s.2, fn_expr := none }

/-- A concrete two-field mapping spec. -/
def exSpec : DtoSpec (String × Nat) String :=
  { dto := "Dto", fields := [exField1, exField2] }

/-- A sink that accepts every event. -/
def okSink : FSink String Nat :=
  { err := fun _ _ => none }

/-- A sink that rejects the field named `age` with error `7` and accepts
everything else. -/
def ageFailSink : FSink String Nat :=
  { err := fun _ e =>
      match e with
      | SEvent.field n _ => if n = "age" then some 7 else none
      | _ => none }

/-! ### Success-path lemmas -/

theorem emit_of_noFail {V E : Type} (snk : FSink V E) (h : noFail snk)
    (tr : List (SEvent V)) (e : SEvent V) : emit snk tr e = (tr ++ [e], none) := by
  simp [emit, h tr e]

theorem serFields_of_noFail {σ V E : Type} (snk : FSink V E) (h : noFail snk)
    (self : σ) : ∀ (fs : List (FieldSpec σ V)) (tr : List (SEvent V)),
      serFields snk self fs tr = (tr ++ fs.map (fieldEvent self), none) := by
  intro fs
  induction fs with
  | nil => intro tr; simp [serFields]
  | cons f fs ih =>
    intro tr
    simp only [serFields, emit_of_noFail snk h, ih, List.map_cons, List.append_assoc,
      List.singleton_append]

theorem count_of_ne_nil {α : Type} : ∀ l : List α, l ≠ [] → count l = some l.length := by
  intro l
  induction l with
  | nil => intro h; exact absurd rfl h
  | cons x t ih =>
    intro _
    cases t with
    | nil => rfl
    | cons y t2 =>
      rw [count, ih (by simp)]
      simp [Nat.add_comm]

theorem countD_of_ne_nil {α : Type} (l : List α) (h : l ≠ []) : countD l = l.length := by
  rw [countD, count_of_ne_nil l h]
  rfl

theorem dto_serialize_of_noFail {σ V E : Type} (spec : DtoSpec σ V) (self : σ)
    (snk : FSink V E) (h : noFail snk) (tr : List (SEvent V)) :
    dto_serialize spec self snk tr = (tr ++ structEvents spec self, none) := by
  simp only [dto_serialize, emit_of_noFail snk h, serFields_of_noFail snk h,
    structEvents, List.append_assoc, List.singleton_append, List.cons_append, List.nil_append]

theorem serElems_of_noFail {σ V E : Type} (spec : DtoSpec σ V) (snk : FSink V E)
    (h : noFail snk) : ∀ (l : List σ) (tr : List (SEvent V)),
      serElems spec snk l tr = (tr ++ (l.map (structEvents spec)).flatten, none) := by
  intro l
  induction l with
  | nil => intro tr; simp [serElems]
  | cons x rest ih =>
    intro tr
    simp only [serElems, _DtoRef.serialize, dto_serialize_of_noFail spec x snk h, ih,
      List.map_cons, List.flatten_cons, List.append_assoc]

theorem vecRef_serialize_of_noFail {σ V E : Type} (spec : DtoSpec σ V) (l : List σ)
    (snk : FSink V E) (h : noFail snk) (tr : List (SEvent V)) :
    _DtoVecRef.serialize spec (_DtoVecRef.mk l) snk tr = (tr ++ seqEvents spec l, none) := by
  simp only [_DtoVecRef.serialize, emit_of_noFail snk h, serElems_of_noFail spec snk h,
    seqEvents, List.append_assoc, List.singleton_append, List.cons_append, List.nil_append]

theorem refVec_serialize_of_noFail {σ V E : Type} (spec : DtoSpec σ V) (l : List σ)
    (snk : FSink V E) (h : noFail snk) (tr : List (SEvent V)) :
    _DtoRefVec.serialize spec (_DtoRefVec.mk l) snk tr = (tr ++ seqEvents spec l, none) := by
  simp only [_DtoRefVec.serialize, emit_of_noFail snk h, serElems_of_noFail spec snk h,
    seqEvents, List.append_assoc, List.singleton_append, List.cons_append, List.nil_append]

/-! ### Field-name extraction lemmas -/

theorem recFieldNames_append {V : Type} :
    ∀ t1 t2 : List (SEvent V), recFieldNames (t1 ++ t2) = recFieldNames t1 ++ recFieldNames t2 := by
  intro t1 t2
  induction t1 with
  | nil => rfl
  | cons e rest ih => cases e <;> simp [recFieldNames, ih]

theorem recFieldNames_map_fieldEvent {σ V : Type} (self : σ) :
    ∀ fs : List (FieldSpec σ V),
      recFieldNames (fs.map (fieldEvent self)) = fs.map (fun f => f.field) := by
  intro fs
  induction fs with
  | nil => rfl
  | cons f rest ih => simp [fieldEvent, recFieldNames, ih]

theorem recFieldNames_structEvents {σ V : Type} (spec : DtoSpec σ V) (self : σ) :
    recFieldNames (structEvents spec self) = spec.fields.map (fun f => f.field) := by
  simp [structEvents, recFieldNames, recFieldNames_append, recFieldNames_map_fieldEvent]

/-! ### Error-path lemma -/

theorem serFields_first_err {σ V E : Type} (snk : FSink V E) (self : σ)
    (f : FieldSpec σ V) (fs2 : List (FieldSpec σ V)) (ε : E) :
    ∀ (fs1 : List (FieldSpec σ V)) (tr : List (SEvent V)),
      serFields snk self fs1 tr = (tr ++ fs1.map (fieldEvent self), none) →
      snk.err (tr ++ fs1.map (fieldEvent self)) (fieldEvent self f) = some ε →
      serFields snk self (fs1 ++ f :: fs2) tr = (tr ++ fs1.map (fieldEvent self), some ε) := by
  intro fs1
  induction fs1 with
  | nil =>
    intro tr _ hfail
    simp only [List.map_nil, List.append_nil] at hfail
    simp [serFields, emit, hfail]
  | cons g gs ih =>
    intro tr hclean hfail
    simp only [List.cons_append, serFields] at hclean ⊢
    cases h0 : snk.err tr (fieldEvent self g) with
    | some ε0 =>
      simp only [emit, h0] at hclean
      simp at hclean
    | none =>
      simp only [emit, h0] at hclean ⊢
      have hclean2 : serFields snk self gs (tr ++ [fieldEvent self g]) =
          (tr ++ [fieldEvent self g] ++ gs.map (fieldEvent self), none) := by
        rw [hclean]
        simp
      have hfail2 : snk.err (tr ++ [fieldEvent self g] ++ gs.map (fieldEvent self))
          (fieldEvent self f) = some ε := by
        rw [← hfail]
        congr 1
        simp
      have hres := ih (tr ++ [fieldEvent self g]) hclean2 hfail2
      rw [List.append_eq, hres]
      simp

/-! ### State-threading lemma -/

theorem serFieldsS_eq {σ V E : Type} (snk : FSink V E) :
    ∀ (fs : List (FieldSpec σ V)) (self : σ) (tr : List (SEvent V)),
      serFieldsS snk self fs tr = (self, serFields snk self fs tr) := by
  intro fs
  induction fs with
  | nil => intro self tr; rfl
  | cons f fs ih =>
    intro self tr
    simp only [serFieldsS, serFields]
    cases hemit : emit snk tr (fieldEvent self f) with
    | mk tr1 o =>
      cases o with
      | none => simpa using ih self tr1
      | some ε => rfl

/-! ### Claim theorems -/

/-- C1: for every mapping and every source value, the generated serialize
operation processes each declared field in declaration order: it resolves the
field's source path by direct member access on the source value, applies the
field's transform to the resolved value if a transform is declared and
otherwise passes the resolved value through unchanged, and writes the result
into the record under the field's output name. -/
theorem dto_serialize_processes_fields_in_order {σ V E : Type}
    (spec : DtoSpec σ V) (self : σ) (snk : FSink V E) (tr : List (SEvent V))
    (h : noFail snk) :
    dto_serialize spec self snk tr =
      (tr ++ (SEvent.beginStruct spec.dto (countD spec.fields) ::
        spec.fields.map (fun f => SEvent.field f.field (fieldValue f self))
          ++ [SEvent.endStruct]), none) := by
  rw [dto_serialize_of_noFail spec self snk h]
  rfl

/-- Witness for C1 at a concrete two-field mapping, source value and sink. -/
theorem dto_serialize_processes_fields_in_order_witness :
    noFail okSink ∧
      dto_serialize exSpec ("John", 5) okSink [] =
        ([SEvent.beginStruct "Dto" 2, SEvent.field "first_name" "John!",
          SEvent.field "age" "5", SEvent.endStruct], (none : Option Nat)) :=
  ⟨fun _ _ => rfl,
    dto_serialize_processes_fields_in_order exSpec ("John", 5) okSink [] (fun _ _ => rfl)⟩

/-- C3: every wrapper kind dispatches through the single generated
`dto_serialize` capability, so owned and borrowed variants of each kind
(single, optional over the same logical optional, sequence over equal
elements) produce identical serialized output, identical to the non-wrapped
single-value case. -/
theorem wrapper_dispatch_equivalence {σ V E : Type} (spec : DtoSpec σ V)
    (snk : FSink V E) (tr : List (SEvent V)) :
    (∀ s : σ, _Dto.serialize spec (_Dto.mk s) snk tr = dto_serialize spec s snk tr) ∧
    (∀ s : σ, _DtoRef.serialize spec (_DtoRef.mk s) snk tr = dto_serialize spec s snk tr) ∧
    (∀ o : Option σ, _DtoOption.serialize spec (_DtoOption.mk o) snk tr
        = _DtoRefOption.serialize spec (_DtoRefOption.mk o) snk tr) ∧
    (∀ o : Option σ, _DtoOption.serialize spec (_DtoOption.mk o) snk tr
        = _DtoOptionRef.serialize spec (_DtoOptionRef.mk o) snk tr) ∧
    (∀ s : σ, _DtoOption.serialize spec (_DtoOption.mk (some s)) snk tr
        = dto_serialize spec s snk tr) ∧
    (∀ l : List σ, _DtoVec.serialize spec (_DtoVec.mk l) snk tr
        = _DtoVecRef.serialize spec (_DtoVecRef.mk l) snk tr) ∧
    (∀ l : List σ, _DtoRefVec.serialize spec (_DtoRefVec.mk l) snk tr
        = _DtoVecRef.serialize spec (_DtoVecRef.mk l) snk tr) :=
  ⟨fun _ => rfl, fun _ => rfl, fun o => by cases o <;> rfl, fun o => by cases o <;> rfl,
    fun _ => rfl, fun _ => rfl, fun _ => rfl⟩

/-- C7: the `impl_dto!(@count ...)` arity helper yields 1 for a single
remaining field, 1 plus the count of the tail otherwise, yields exactly `N`
for every non-empty field list of length `N`, and fails (has no expansion,
modelled as `none`) for an empty list. -/
theorem count_arity (α : Type) :
    (count ([] : List α) = none) ∧
    (∀ x : α, count [x] = some 1) ∧
    (∀ (x y : α) (t : List α),
      count (x :: y :: t) = (count (y :: t)).map (fun n => 1 + n)) ∧
    (∀ l : List α, l ≠ [] → count l = some l.length) :=
  ⟨rfl, fun _ => rfl, fun _ _ _ => rfl, count_of_ne_nil⟩

/-- Witness for C7 on a concrete three-element list. -/
theorem count_arity_witness : count [(1 : Nat), 2, 3] = some 3 :=
  (count_arity Nat).2.2.2 [1, 2, 3] (by decide)

/-- C9: serialization never mutates the source entity: the generated
capability only reads the source through a shared reference, modelled by
threading the source value through the whole run; after any serialize call,
whether it succeeds or fails, the source value is unchanged, and the threaded
run computes exactly the output of `dto_serialize`. -/
theorem serialize_preserves_source {σ V E : Type} (spec : DtoSpec σ V)
    (self : σ) (snk : FSink V E) (tr : List (SEvent V)) :
    (dto_serializeS spec self snk tr).1 = self ∧
    (dto_serializeS spec self snk tr).2 = dto_serialize spec self snk tr := by
  unfold dto_serializeS dto_serialize
  cases h1 : emit snk tr (SEvent.beginStruct spec.dto (countD spec.fields)) with
  | mk tr1 o1 =>
    cases o1 with
    | some ε => exact ⟨rfl, rfl⟩
    | none =>
      dsimp only
      rw [serFieldsS_eq]
      cases h2 : serFields snk self spec.fields tr1 with
      | mk tr2 o2 =>
        cases o2 with
        | some ε => exact ⟨rfl, rfl⟩
        | none => exact ⟨rfl, rfl⟩

/-- C2: for any mapping with `N` declared fields (`N ≥ 1`) and any source
value, serializing through any of the eight wrapper kinds yields a document
whose record part has exactly `N` named fields, appearing in declaration
order, with no field skipped, reordered, duplicated, or deduplicated: the
record field names of the output are exactly the declared output names. -/
theorem serialize_record_field_arity_order {σ V E : Type} (spec : DtoSpec σ V)
    (s : σ) (snk : FSink V E) (N : Nat) (h : noFail snk)
    (hN : spec.fields.length = N) (hpos : 1 ≤ N) :
    (spec.fields.map (fun f => f.field)).length = N ∧
    recFieldNames (_Dto.serialize spec (_Dto.mk s) snk []).1
      = spec.fields.map (fun f => f.field) ∧
    recFieldNames (_DtoRef.serialize spec (_DtoRef.mk s) snk []).1
      = spec.fields.map (fun f => f.field) ∧
    recFieldNames (_DtoOption.serialize spec (_DtoOption.mk (some s)) snk []).1
      = spec.fields.map (fun f => f.field) ∧
    recFieldNames (_DtoRefOption.serialize spec (_DtoRefOption.mk (some s)) snk []).1
      = spec.fields.map (fun f => f.field) ∧
    recFieldNames (_DtoOptionRef.serialize spec (_DtoOptionRef.mk (some s)) snk []).1
      = spec.fields.map (fun f => f.field) ∧
    recFieldNames (_DtoVec.serialize spec (_DtoVec.mk [s]) snk []).1
      = spec.fields.map (fun f => f.field) ∧
    recFieldNames (_DtoRefVec.serialize spec (_DtoRefVec.mk [s]) snk []).1
      = spec.fields.map (fun f => f.field) ∧
    recFieldNames (_DtoVecRef.serialize spec (_DtoVecRef.mk [s]) snk []).1
      = spec.fields.map (fun f => f.field) := by
  refine ⟨by simpa using hN, ?_, ?_, ?_, ?_, ?_, ?_, ?_, ?_⟩ <;>
    simp [_Dto.serialize, _DtoRef.serialize, _DtoOption.serialize,
      _DtoRefOption.serialize, _DtoOptionRef.serialize, _DtoVec.serialize,
      dto_serialize_of_noFail _ _ _ h, vecRef_serialize_of_noFail _ _ _ h,
      refVec_serialize_of_noFail _ _ _ h, seqEvents,
      recFieldNames, recFieldNames_append, recFieldNames_structEvents,
      recFieldNames_map_fieldEvent]

/-- Witness for C2 at a concrete two-field mapping and source value. -/
theorem serialize_record_field_arity_order_witness :
    recFieldNames (_Dto.serialize exSpec (_Dto.mk ("John", 5)) okSink []).1
      = ["first_name", "age"] :=
  (serialize_record_field_arity_order exSpec ("John", 5) okSink 2
    (fun _ _ => rfl) rfl (by decide)).2.1

/-- C4: for every optional wrapper kind, an absent optional serializes to the
literal null document, and a present optional serializes to exactly the same
document as serializing the contained value through the non-optional
single-value path. -/
theorem option_wrapper_null_or_single {σ V E : Type} (spec : DtoSpec σ V)
    (snk : FSink V E) (tr : List (SEvent V)) (h : noFail snk) :
    (_DtoOption.serialize spec (_DtoOption.mk none) snk tr = (tr ++ [SEvent.null], none)) ∧
    (_DtoRefOption.serialize spec (_DtoRefOption.mk none) snk tr = (tr ++ [SEvent.null], none)) ∧
    (_DtoOptionRef.serialize spec (_DtoOptionRef.mk none) snk tr = (tr ++ [SEvent.null], none)) ∧
    (∀ s : σ, _DtoOption.serialize spec (_DtoOption.mk (some s)) snk tr
      = dto_serialize spec s snk tr) ∧
    (∀ s : σ, _DtoRefOption.serialize spec (_DtoRefOption.mk (some s)) snk tr
      = dto_serialize spec s snk tr) ∧
    (∀ s : σ, _DtoOptionRef.serialize spec (_DtoOptionRef.mk (some s)) snk tr
      = dto_serialize spec s snk tr) :=
  ⟨by simp [_DtoOption.serialize, emit_of_noFail snk h],
   by simp [_DtoRefOption.serialize, emit_of_noFail snk h],
   by simp [_DtoOptionRef.serialize, emit_of_noFail snk h],
   fun _ => rfl, fun _ => rfl, fun _ => rfl⟩

/-- Witness for C4: an absent optional at a concrete mapping and sink. -/
theorem option_wrapper_null_or_single_witness :
    _DtoOption.serialize exSpec (_DtoOption.mk none) okSink []
      = ([SEvent.null], (none : Option Nat)) :=
  (option_wrapper_null_or_single exSpec okSink [] (fun _ _ => rfl)).1

/-- C5: every sequence wrapper holding `K` elements serializes to an array
document of exactly `K` elements, where the i-th array element equals the
single-value document of the i-th input element, in input order: the output
is the sequence header, the concatenation of the per-element single-value
event blocks in order, and the sequence footer — and `structEvents` is
exactly the single-value document, as the first conjunct states. -/
theorem seq_wrapper_elementwise {σ V E : Type} (spec : DtoSpec σ V)
    (snk : FSink V E) (tr : List (SEvent V)) (h : noFail snk) :
    (∀ x : σ, dto_serialize spec x snk tr = (tr ++ structEvents spec x, none)) ∧
    (∀ l : List σ, _DtoVec.serialize spec (_DtoVec.mk l) snk tr =
      (tr ++ (SEvent.beginSeq (some l.length) ::
        (l.map (structEvents spec)).flatten ++ [SEvent.endSeq]), none)) ∧
    (∀ l : List σ, _DtoRefVec.serialize spec (_DtoRefVec.mk l) snk tr =
      (tr ++ (SEvent.beginSeq (some l.length) ::
        (l.map (structEvents spec)).flatten ++ [SEvent.endSeq]), none)) ∧
    (∀ l : List σ, _DtoVecRef.serialize spec (_DtoVecRef.mk l) snk tr =
      (tr ++ (SEvent.beginSeq (some l.length) ::
        (l.map (structEvents spec)).flatten ++ [SEvent.endSeq]), none)) :=
  ⟨fun x => dto_serialize_of_noFail spec x snk h tr,
   fun l => vecRef_serialize_of_noFail spec l snk h tr,
   fun l => refVec_serialize_of_noFail spec l snk h tr,
   fun l => vecRef_serialize_of_noFail spec l snk h tr⟩

/-- Witness for C5: a one-element sequence at a concrete mapping and sink. -/
theorem seq_wrapper_elementwise_witness :
    _DtoVec.serialize exSpec (_DtoVec.mk [("John", 5)]) okSink [] =
      ([SEvent.beginSeq (some 1), SEvent.beginStruct "Dto" 2,
        SEvent.field "first_name" "John!", SEvent.field "age" "5",
        SEvent.endStruct, SEvent.endSeq], (none : Option Nat)) :=
  (seq_wrapper_elementwise exSpec okSink [] (fun _ _ => rfl)).2.1 [("John", 5)]

/-- C6: any error surfaced by the output sink while writing a field aborts
the whole operation immediately — no later field is written and the record is
not finalized — and the error is propagated unchanged to the caller, with no
retry and no partial-record recovery: if the header and the fields before `f`
are accepted and the sink rejects field `f` with `ε`, the run returns exactly
`ε` with a trace ending at the fields before `f`.  (In the generated code a
transform is an infallible plain closure, so the sink is the only source of
runtime serialization errors.) -/
theorem serialize_error_aborts_and_propagates {σ V E : Type} (spec : DtoSpec σ V)
    (self : σ) (snk : FSink V E) (tr : List (SEvent V))
    (fs1 : List (FieldSpec σ V)) (f : FieldSpec σ V) (fs2 : List (FieldSpec σ V)) (ε : E)
    (hsplit : spec.fields = fs1 ++ f :: fs2)
    (hbegin : snk.err tr (SEvent.beginStruct spec.dto (countD spec.fields)) = none)
    (hclean : serFields snk self fs1
        (tr ++ [SEvent.beginStruct spec.dto (countD spec.fields)]) =
      (tr ++ [SEvent.beginStruct spec.dto (countD spec.fields)]
        ++ fs1.map (fieldEvent self), none))
    (hfail : snk.err (tr ++ [SEvent.beginStruct spec.dto (countD spec.fields)]
        ++ fs1.map (fieldEvent self)) (fieldEvent self f) = some ε) :
    dto_serialize spec self snk tr =
      (tr ++ [SEvent.beginStruct spec.dto (countD spec.fields)]
        ++ fs1.map (fieldEvent self), some ε) := by
  have key := serFields_first_err snk self f fs2 ε fs1
    (tr ++ [SEvent.beginStruct spec.dto (countD spec.fields)]) hclean hfail
  rw [← hsplit] at key
  simp only [dto_serialize, emit, hbegin, key]

/-- Witness for C6: a sink that rejects the second field with error `7`
aborts after the first field, with no later field and no record footer. -/
theorem serialize_error_aborts_and_propagates_witness :
    dto_serialize exSpec ("John", 5) ageFailSink [] =
      ([SEvent.beginStruct "Dto" 2, SEvent.field "first_name" "John!"], some 7) :=
  serialize_error_aborts_and_propagates exSpec ("John", 5) ageFailSink []
    [exField1] exField2 [] 7 rfl rfl (by decide) (by decide)

/-- C8: serialization is a deterministic function of its input: for every
wrapper kind the output is the fixed event block determined by the wrapped
value alone, appended to whatever was already written, so two serializations
of the same input through the same wrapper kind produce the same output every
time, and the only effect of a run is the events it appends to the sink. -/
theorem serialize_deterministic {σ V E : Type} (spec : DtoSpec σ V)
    (snk : FSink V E) (h : noFail snk) :
    (∀ (s : σ) (tr : List (SEvent V)),
      _Dto.serialize spec (_Dto.mk s) snk tr = (tr ++ structEvents spec s, none)) ∧
    (∀ (s : σ) (tr : List (SEvent V)),
      _DtoRef.serialize spec (_DtoRef.mk s) snk tr = (tr ++ structEvents spec s, none)) ∧
    (∀ (o : Option σ) (tr : List (SEvent V)),
      _DtoOption.serialize spec (_DtoOption.mk o) snk tr = (tr ++ optionEvents spec o, none)) ∧
    (∀ (o : Option σ) (tr : List (SEvent V)),
      _DtoRefOption.serialize spec (_DtoRefOption.mk o) snk tr = (tr ++ optionEvents spec o, none)) ∧
    (∀ (o : Option σ) (tr : List (SEvent V)),
      _DtoOptionRef.serialize spec (_DtoOptionRef.mk o) snk tr = (tr ++ optionEvents spec o, none)) ∧
    (∀ (l : List σ) (tr : List (SEvent V)),
      _DtoVec.serialize spec (_DtoVec.mk l) snk tr = (tr ++ seqEvents spec l, none)) ∧
    (∀ (l : List σ) (tr : List (SEvent V)),
      _DtoRefVec.serialize spec (_DtoRefVec.mk l) snk tr = (tr ++ seqEvents spec l, none)) ∧
    (∀ (l : List σ) (tr : List (SEvent V)),
      _DtoVecRef.serialize spec (_DtoVecRef.mk l) snk tr = (tr ++ seqEvents spec l, none)) :=
  ⟨fun s tr => dto_serialize_of_noFail spec s snk h tr,
   fun s tr => dto_serialize_of_noFail spec s snk h tr,
   fun o tr => by
     cases o with
     | none => simp [_DtoOption.serialize, optionEvents, emit_of_noFail snk h]
     | some s => simpa [_DtoOption.serialize, optionEvents, _DtoRef.serialize]
         using dto_serialize_of_noFail spec s snk h tr,
   fun o tr => by
     cases o with
     | none => simp [_DtoRefOption.serialize, optionEvents, emit_of_noFail snk h]
     | some s => simpa [_DtoRefOption.serialize, optionEvents, _DtoRef.serialize]
         using dto_serialize_of_noFail spec s snk h tr,
   fun o tr => by
     cases o with
     | none => simp [_DtoOptionRef.serialize, optionEvents, emit_of_noFail snk h]
     | some s => simpa [_DtoOptionRef.serialize, optionEvents, _DtoRef.serialize]
         using dto_serialize_of_noFail spec s snk h tr,
   fun l tr => vecRef_serialize_of_noFail spec l snk h tr,
   fun l tr => refVec_serialize_of_noFail spec l snk h tr,
   fun l tr => vecRef_serialize_of_noFail spec l snk h tr⟩

/-- Witness for C8 at a concrete wrapper, input and sink, starting from a
nonempty sink history. -/
theorem serialize_deterministic_witness :
    _Dto.serialize exSpec (_Dto.mk ("Jo", 4)) okSink [SEvent.null] =
      ([SEvent.null, SEvent.beginStruct "Dto" 2, SEvent.field "first_name" "Jo!",
        SEvent.field "age" "4", SEvent.endStruct], (none : Option Nat)) :=
  (serialize_deterministic exSpec okSink (fun _ _ => rfl)).1 ("Jo", 4) [SEvent.null]

/-- C10: every size hint handed to the encoder matches what is actually
written: the record is opened with a declared size equal to the number of
field writes that follow, and each sequence is opened with a declared length
equal to the number of element documents serialized before the footer. -/
theorem size_hints_match_writes {σ V E : Type} (spec : DtoSpec σ V) (self : σ)
    (snk : FSink V E) (tr : List (SEvent V)) (h : noFail snk)
    (hne : spec.fields ≠ []) :
    countD spec.fields = (spec.fields.map (fieldEvent self)).length ∧
    dto_serialize spec self snk tr =
      (tr ++ (SEvent.beginStruct spec.dto ((spec.fields.map (fieldEvent self)).length) ::
        spec.fields.map (fieldEvent self) ++ [SEvent.endStruct]), none) ∧
    (∀ l : List σ, _DtoRefVec.serialize spec (_DtoRefVec.mk l) snk tr =
      (tr ++ (SEvent.beginSeq (some (l.map (structEvents spec)).length) ::
        (l.map (structEvents spec)).flatten ++ [SEvent.endSeq]), none)) ∧
    (∀ l : List σ, _DtoVecRef.serialize spec (_DtoVecRef.mk l) snk tr =
      (tr ++ (SEvent.beginSeq (some (l.map (structEvents spec)).length) ::
        (l.map (structEvents spec)).flatten ++ [SEvent.endSeq]), none)) := by
  have hcount : countD spec.fields = (spec.fields.map (fieldEvent self)).length := by
    rw [countD_of_ne_nil spec.fields hne, List.length_map]
  refine ⟨hcount, ?_, ?_, ?_⟩
  · rw [dto_serialize_of_noFail spec self snk h, structEvents, hcount]
  · intro l
    rw [refVec_serialize_of_noFail spec l snk h tr, seqEvents, List.length_map]
  · intro l
    rw [vecRef_serialize_of_noFail spec l snk h tr, seqEvents, List.length_map]

/-- Witness for C10 at a concrete mapping, source value and sink. -/
theorem size_hints_match_writes_witness :
    dto_serialize exSpec ("Ann", 3) okSink [] =
      ([SEvent.beginStruct "Dto" 2, SEvent.field "first_name" "Ann!",
        SEvent.field "age" "3", SEvent.endStruct], (none : Option Nat)) :=
  (size_hints_match_writes exSpec ("Ann", 3) okSink [] (fun _ _ => rfl)
    (List.cons_ne_nil _ _)).2.1

end SerMapper
